import Mathlib

/-!
Verification of the Connect Four WebSocket server (server.js).
The board engine, session state and event handlers are embedded as pure
Lean functions; message sends are modelled as explicit output lists of
(channel, message) pairs.
-/

namespace ConnectFour

/-- The two player identities, PLAYER1 and PLAYER2 in the source. -/
inductive Player
  | P1
  | P2
deriving DecidableEq

/-- Game statuses from the GAME_STATUS enumeration. -/
inductive Status
  | WAITING
  | ONGOING
  | WIN
  | DRAW
  | ABANDONED
deriving DecidableEq

/-- The 6x7 board: row 0 is the top row, each cell empty or owned. -/
abbrev Board := Fin 6 → Fin 7 → Option Player

/-- createEmptyBoard: a 6x7 grid of null cells. -/
def createEmptyBoard : Board := fun _ _ => none

/-- Reading a cell at signed coordinates; out-of-bounds reads give none,
matching the bounds test in the win-scan loop. -/
def cellAt (b : Board) (r c : Int) : Option Player :=
  if h : 0 ≤ r ∧ r < 6 ∧ 0 ≤ c ∧ c < 7 then
    b ⟨r.toNat, by omega⟩ ⟨c.toNat, by omega⟩
  else none

/-- The four probe directions of checkWinCondition: horizontal, vertical,
diagonal down-right, diagonal down-left. -/
def directions : List (Int × Int) := [(0, 1), (1, 0), (1, 1), (1, -1)]

/-- The inner counting loop of checkWinCondition, unrolled: starting count 1
at (r, c), extend with offsets 1, 2, 3 in direction (dr, dc), stopping at the
first cell that is out of bounds or not owned by p. -/
def countRun (b : Board) (p : Player) (r c dr dc : Int) : Nat :=
  if cellAt b (r + dr * 1) (c + dc * 1) = some p then
    if cellAt b (r + dr * 2) (c + dc * 2) = some p then
      if cellAt b (r + dr * 3) (c + dc * 3) = some p then 4 else 3
    else 2
  else 1

/-- Row-major enumeration of all cells, the scan order of checkWinCondition. -/
def scanCells : List (Fin 6 × Fin 7) :=
  (List.finRange 6).flatMap fun r => (List.finRange 7).map fun c => (r, c)

/-- The per-cell body of the checkWinCondition scan: if the cell is occupied
and some direction reaches count 4, its owner is the declared winner. -/
def winnerAtCell (b : Board) (r : Fin 6) (c : Fin 7) : Option Player :=
  match b r c with
  | none => none
  | some p =>
    if directions.any (fun d => decide (4 ≤ countRun b p (r.val : Int) (c.val : Int) d.1 d.2))
    then some p else none

/-- The full scan of checkWinCondition: the first cell in row-major order
whose probe finds a run of length at least 4 yields the winner. -/
def findWinner (b : Board) : Option Player :=
  scanCells.findSome? fun rc => winnerAtCell b rc.1 rc.2

/-- The draw test of checkWinCondition: every cell of every row occupied. -/
def boardFull (b : Board) : Bool :=
  scanCells.all fun rc => (b rc.1 rc.2).isSome

/-- A participant entry of game.players: assigned identity plus the
connection it is attached to (channels are numbered). -/
structure Participant where
  id : Player
  chan : Nat
deriving DecidableEq

/-- The global game object: board, currentPlayer, status, players, winner. -/
structure GameState where
  board : Board
  currentPlayer : Player
  status : Status
  players : List Participant
  winner : Option Player

/-- checkWinCondition: scans the board; a found run sets status WIN and the
winner; otherwise a full board sets status DRAW and clears the winner;
otherwise the state is untouched. -/
def checkWinCondition (g : GameState) : GameState :=
  match findWinner g.board with
  | some p => { g with status := Status.WIN, winner := some p }
  | none =>
    if boardFull g.board then { g with status := Status.DRAW, winner := none }
    else g

/-- Writing one cell of the board. -/
def updateCell (b : Board) (r : Fin 6) (c : Fin 7) (p : Player) : Board :=
  fun r' c' => if r' = r ∧ c' = c then some p else b r' c'

/-- makeMove: place the piece in the first empty cell scanning the column
from the bottom row (index 5) upward, unrolling the row loop; a full column
is a no-op reporting false. -/
def makeMove (b : Board) (column : Fin 7) (player : Player) : Board × Bool :=
  if b ⟨5, by omega⟩ column = none then (updateCell b ⟨5, by omega⟩ column player, true)
  else if b ⟨4, by omega⟩ column = none then (updateCell b ⟨4, by omega⟩ column player, true)
  else if b ⟨3, by omega⟩ column = none then (updateCell b ⟨3, by omega⟩ column player, true)
  else if b ⟨2, by omega⟩ column = none then (updateCell b ⟨2, by omega⟩ column player, true)
  else if b ⟨1, by omega⟩ column = none then (updateCell b ⟨1, by omega⟩ column player, true)
  else if b ⟨0, by omega⟩ column = none then (updateCell b ⟨0, by omega⟩ column player, true)
  else (b, false)

/-- isValidMove: false for a column outside bounds, else true iff the top
cell of the column is empty. -/
def isValidMove (b : Board) (column : Int) : Bool :=
  if h : column < 0 ∨ 7 ≤ column then false
  else decide (b ⟨0, by omega⟩ ⟨column.toNat, by omega⟩ = none)

/-- The turn flip: currentPlayer === PLAYER1 ? PLAYER2 : PLAYER1. -/
def otherPlayer (p : Player) : Player :=
  if p = Player.P1 then Player.P2 else Player.P1

/-- Modelled from the spec: an identity p has a contiguous run of length at
least 4 along a row, a column, or either diagonal, expressed as a window of
four consecutive same-identity cells anchored at some cell in one of the
four probe directions. -/
def hasRun (b : Board) (p : Player) : Prop :=
  ∃ (r : Fin 6) (c : Fin 7), ∃ d ∈ directions,
    ∀ i : Nat, i < 4 →
      cellAt b ((r.val : Int) + d.1 * (i : Int)) ((c.val : Int) + d.2 * (i : Int)) = some p

instance (b : Board) (p : Player) : Decidable (hasRun b p) := by
  unfold hasRun
  infer_instance

/-- Modelled from the spec: the gravity invariant — an occupied cell strictly
above the bottom row sits on an occupied cell. -/
def gravityInv (b : Board) : Prop :=
  ∀ (r : Fin 6) (c : Fin 7) (hb : r.val + 1 < 6), b r c ≠ none → b ⟨r.val + 1, hb⟩ c ≠ none

/-- Outbound message kinds sent by the server (payload fields that no claim
depends on are elided). -/
inductive OutMsg
  | errorMsg
  | gameFull
  | assignment (pid : Player)
  | update
  | gameOver
  | chatMsg (sender : Player) (text : String)
deriving DecidableEq

/-- broadcastGameState: one state message per connected player, an update
while WAITING or ONGOING and a game-over notice for terminal statuses. -/
def broadcastGameState (g : GameState) : List (Nat × OutMsg) :=
  let m := if g.status = Status.ONGOING ∨ g.status = Status.WAITING then OutMsg.update
           else OutMsg.gameOver
  g.players.map fun q => (q.chan, m)

/-- Decoded inbound payloads: a parse failure, one of the three recognised
kinds with their fields, or a well-formed payload of unrecognised kind. -/
inductive ClientMsg
  | malformed
  | move (player : Option Player) (column : Int)
  | resetGame
  | chat (player : Option Player) (text : String)
  | unknownKind
deriving DecidableEq

/-- fullGameReset: empty board, Player1 to move, WAITING, no players, no
winner. -/
def fullGameReset : GameState :=
  { board := createEmptyBoard, currentPlayer := Player.P1, status := Status.WAITING,
    players := [], winner := none }

/-- playerInitiatedReset: empty board, Player1 starts, winner cleared,
players kept; ONGOING when both players are still present, else WAITING. -/
def playerInitiatedReset (g : GameState) : GameState :=
  { board := createEmptyBoard, currentPlayer := Player.P1,
    status := if g.players.length = 2 then Status.ONGOING else Status.WAITING,
    players := g.players, winner := none }

/-- The turn flip after a move: if the game is still ONGOING after the win
check, hand the turn to the other player, else leave the turn-owner alone. -/
def afterMoveFlip (g2 : GameState) : GameState :=
  if g2.status = Status.ONGOING
  then { g2 with currentPlayer := otherPlayer g2.currentPlayer }
  else g2

/-- The per-connection message handler: a parse failure gets an error reply;
a move passes the actor/turn/status guard and then either plays (drop, win
check, turn flip while still ongoing, broadcast) or gets an error reply for
an invalid column; a reset is honoured only from a terminal status, else an
error reply; a chat with valid fields is relayed to everyone; anything that
matches no branch of the dispatch chain is dropped silently. -/
def handleMessage (g : GameState) (wsPlayer : Player) (ch : Nat) (m : ClientMsg) :
    GameState × List (Nat × OutMsg) :=
  match m with
  | ClientMsg.malformed => (g, [(ch, OutMsg.errorMsg)])
  | ClientMsg.move pl col =>
    if pl = some wsPlayer ∧ g.currentPlayer = wsPlayer ∧ g.status = Status.ONGOING then
      if hv : isValidMove g.board col = true then
        let c : Fin 7 := ⟨col.toNat, by
          revert hv
          unfold isValidMove
          split_ifs with hb
          · intro hfalse
            cases hfalse
          · intro _
            omega⟩
        let g1 := { g with board := (makeMove g.board c wsPlayer).1 }
        let g2 := checkWinCondition g1
        let g3 := afterMoveFlip g2
        (g3, broadcastGameState g3)
      else (g, [(ch, OutMsg.errorMsg)])
    else (g, [])
  | ClientMsg.resetGame =>
    if g.status = Status.WIN ∨ g.status = Status.DRAW ∨ g.status = Status.ABANDONED then
      let g1 := playerInitiatedReset g
      (g1, broadcastGameState g1)
    else (g, [(ch, OutMsg.errorMsg)])
  | ClientMsg.chat pl text =>
    if text.trim ≠ "" ∧ pl = some wsPlayer then
      (g, g.players.map fun q => (q.chan, OutMsg.chatMsg wsPlayer text.trim))
    else (g, [])
  | ClientMsg.unknownKind => (g, [])

/-- findIndex of the first list entry satisfying the predicate. -/
def findIndex {α : Type} (pred : α → Bool) : List α → Option Nat
  | [] => none
  | a :: l => if pred a then some 0 else (findIndex pred l).map (· + 1)

/-- handlePlayerDisconnect: an identity not in the players list is ignored;
otherwise that entry is removed, an ONGOING game becomes ABANDONED (winner
the sole survivor if exactly one remains) with a broadcast, and a session
left with zero players in a non-WAITING status is fully rebuilt. -/
def handlePlayerDisconnect (g : GameState) (pid : Player) : GameState × List (Nat × OutMsg) :=
  match findIndex (fun q => decide (q.id = pid)) g.players with
  | none => (g, [])
  | some i =>
    let g1 := { g with players := g.players.eraseIdx i }
    let afterAbandon :=
      if g1.status = Status.ONGOING then
        let w := if g1.players.length = 1 then g1.players.head?.map Participant.id else none
        let g2 := { g1 with status := Status.ABANDONED, winner := w }
        (g2, broadcastGameState g2)
      else (g1, ([] : List (Nat × OutMsg)))
    if afterAbandon.1.players.length = 0 ∧ afterAbandon.1.status ≠ Status.WAITING then
      (fullGameReset, afterAbandon.2)
    else afterAbandon

/-- The whole server: the session, the registry of channels that ever
connected with the identity stored on each (none for a rejected joiner),
and the next fresh channel number. -/
structure ServerState where
  game : GameState
  chans : List (Nat × Option Player)
  nextChan : Nat

/-- The connection handler: a join while the game is full and not WAITING is
rejected with a game-full notice; otherwise the joiner is assigned Player1
when the list is empty and Player2 otherwise, receives its assignment, and
the game starts (with a broadcast) when it reaches two players from
WAITING, or broadcasts the waiting state when still below two players. -/
def handleConnection (s : ServerState) : ServerState × List (Nat × OutMsg) :=
  let g := s.game
  let ch := s.nextChan
  if 2 ≤ g.players.length ∧ g.status ≠ Status.WAITING then
    ({ game := g, chans := s.chans ++ [(ch, none)], nextChan := ch + 1 },
     [(ch, OutMsg.gameFull)])
  else
    let pid := if g.players.length = 0 then Player.P1 else Player.P2
    let g1 := { g with players := g.players ++ [{ id := pid, chan := ch }] }
    let base : ServerState := { game := g1, chans := s.chans ++ [(ch, some pid)], nextChan := ch + 1 }
    if g1.players.length = 2 ∧ g1.status = Status.WAITING then
      let g2 := { g1 with status := Status.ONGOING }
      ({ base with game := g2 }, (ch, OutMsg.assignment pid) :: broadcastGameState g2)
    else if g1.players.length < 2 then
      (base, (ch, OutMsg.assignment pid) :: broadcastGameState g1)
    else
      (base, [(ch, OutMsg.assignment pid)])

/-- Identity stored on a channel, if the channel is known. -/
def lookupChan (chans : List (Nat × Option Player)) (ch : Nat) : Option (Option Player) :=
  (chans.find? fun e => decide (e.1 = ch)).map Prod.snd

/-- Transport events surfaced to the server. -/
inductive Event
  | connect
  | message (ch : Nat) (m : ClientMsg)
  | disconnect (ch : Nat)

/-- One event dispatch. Messages act only through channels that were
accepted and so carry an identity (a rejected channel has no message
listener); a disconnect retires the channel and runs the disconnect handler
when the channel had an identity. -/
def step (s : ServerState) : Event → ServerState × List (Nat × OutMsg)
  | Event.connect => handleConnection s
  | Event.message ch m =>
    match lookupChan s.chans ch with
    | some (some pid) =>
      let r := handleMessage s.game pid ch m
      ({ s with game := r.1 }, r.2)
    | _ => (s, [])
  | Event.disconnect ch =>
    match lookupChan s.chans ch with
    | none => (s, [])
    | some chPid =>
      let s1 : ServerState := { s with chans := s.chans.filter fun e => decide (e.1 ≠ ch) }
      match chPid with
      | none => (s1, [])
      | some pid =>
        let r := handlePlayerDisconnect s1.game pid
        ({ s1 with game := r.1 }, r.2)

/-- The state at process start. -/
def initState : ServerState :=
  { game := { board := createEmptyBoard, currentPlayer := Player.P1, status := Status.WAITING,
              players := [], winner := none },
    chans := [], nextChan := 0 }

/-- Replaying a list of events. -/
def run (s : ServerState) (evs : List Event) : ServerState :=
  evs.foldl (fun t e => (step t e).1) s

/-- The states the server can be in after any sequence of events. -/
inductive Reachable : ServerState → Prop
  | init : Reachable initState
  | next (s : ServerState) (e : Event) : Reachable s → Reachable (step s e).1

/-- A board on which both identities own a completed run: Player1 across the
bottom row, Player2 across the row above it. -/
def bothWinBoard : Board := fun r c =>
  if r.val = 5 ∧ c.val ≤ 3 then some Player.P1
  else if r.val = 4 ∧ c.val ≤ 3 then some Player.P2
  else none

/-- A mid-game state holding bothWinBoard. -/
def bothWinState : GameState :=
  { board := bothWinBoard, currentPlayer := Player.P1, status := Status.ONGOING,
    players := [{ id := Player.P1, chan := 0 }, { id := Player.P2, chan := 1 }], winner := none }

/-- A board where only Player1 owns a run (vertical in column 0). -/
def p1ColumnBoard : Board := fun r c =>
  if c.val = 0 ∧ 2 ≤ r.val then some Player.P1
  else if c.val = 1 ∧ 3 ≤ r.val then some Player.P2
  else none

/-- A mid-game state holding p1ColumnBoard. -/
def p1WinState : GameState :=
  { board := p1ColumnBoard, currentPlayer := Player.P2, status := Status.ONGOING,
    players := [{ id := Player.P1, chan := 0 }, { id := Player.P2, chan := 1 }], winner := none }

/-- The event trace join, join, first player leaves, join again. -/
def rejoinTrace : List Event :=
  [Event.connect, Event.connect, Event.disconnect 0, Event.connect]

/-- The server state reached by rejoinTrace. -/
def rejoinState : ServerState := run initState rejoinTrace

/-- A session waiting for a second player, seat A already connected. -/
def waitingAState : GameState :=
  { board := createEmptyBoard, currentPlayer := Player.P1, status := Status.WAITING,
    players := [{ id := Player.P1, chan := 0 }], winner := none }

/-- A fresh two-player game in progress. -/
def ongoingState : GameState :=
  { board := createEmptyBoard, currentPlayer := Player.P1, status := Status.ONGOING,
    players := [{ id := Player.P1, chan := 0 }, { id := Player.P2, chan := 1 }], winner := none }

/-- A finished game: Player1 has won and both players are still connected. -/
def scenarioFState : GameState :=
  { board := p1ColumnBoard, currentPlayer := Player.P2, status := Status.WIN,
    players := [{ id := Player.P1, chan := 0 }, { id := Player.P2, chan := 1 }],
    winner := some Player.P1 }

/-- The server after two accepted joins: a full ONGOING game. -/
def ongoingServer : ServerState := run initState [Event.connect, Event.connect]

/-- The server after a third connection was rejected while the game was
full and ONGOING. -/
def rejectedServer : ServerState :=
  run initState [Event.connect, Event.connect, Event.connect]

/-- The server after the first player left the full ONGOING game. -/
def abandonedServer : ServerState :=
  run initState [Event.connect, Event.connect, Event.disconnect 0]

lemma cellAt_coe (b : Board) (r : Fin 6) (c : Fin 7) :
    cellAt b (r.val : Int) (c.val : Int) = b r c := by
  have hr := r.isLt
  have hc := c.isLt
  rw [cellAt, dif_pos (by omega)]
  have h1 : ((r.val : Int)).toNat = r.val := by omega
  have h2 : ((c.val : Int)).toNat = c.val := by omega
  simp only [h1, h2, Fin.eta]

lemma forall_lt_four {P : Nat → Prop} :
    (∀ i : Nat, i < 4 → P i) ↔ P 0 ∧ P 1 ∧ P 2 ∧ P 3 := by
  constructor
  · intro h
    exact ⟨h 0 (by omega), h 1 (by omega), h 2 (by omega), h 3 (by omega)⟩
  · rintro ⟨h0, h1, h2, h3⟩ i hi
    interval_cases i <;> assumption

lemma countRun_ge_four_iff (b : Board) (p : Player) (r c dr dc : Int) :
    4 ≤ countRun b p r c dr dc ↔
      (cellAt b (r + dr * 1) (c + dc * 1) = some p ∧
       cellAt b (r + dr * 2) (c + dc * 2) = some p ∧
       cellAt b (r + dr * 3) (c + dc * 3) = some p) := by
  unfold countRun
  split_ifs with h1 h2 h3 <;> simp_all

lemma winnerAtCell_eq_some_iff (b : Board) (r : Fin 6) (c : Fin 7) (q : Player) :
    winnerAtCell b r c = some q ↔
      (b r c = some q ∧
        ∃ d ∈ directions, 4 ≤ countRun b q (r.val : Int) (c.val : Int) d.1 d.2) := by
  cases h : b r c with
  | none => simp [winnerAtCell, h]
  | some p =>
    simp only [winnerAtCell, h, List.any_eq_true, decide_eq_true_eq, Option.some.injEq]
    split_ifs with hany
    · simp only [Option.some.injEq]
      constructor
      · rintro rfl
        exact ⟨rfl, hany⟩
      · rintro ⟨rfl, _⟩
        rfl
    · constructor
      · intro hx
        cases hx
      · rintro ⟨rfl, hd⟩
        exact absurd hd hany

lemma hasRun_iff_winnerAtCell (b : Board) (p : Player) :
    hasRun b p ↔ ∃ (r : Fin 6) (c : Fin 7), winnerAtCell b r c = some p := by
  unfold hasRun
  constructor
  · rintro ⟨r, c, d, hd, hwin⟩
    rw [forall_lt_four] at hwin
    obtain ⟨h0, h1, h2, h3⟩ := hwin
    refine ⟨r, c, (winnerAtCell_eq_some_iff b r c p).mpr ⟨?_, d, hd, ?_⟩⟩
    · have h0' : cellAt b (r.val : Int) (c.val : Int) = some p := by
        simpa using h0
      rwa [cellAt_coe] at h0'
    · rw [countRun_ge_four_iff]
      refine ⟨?_, ?_, ?_⟩
      · simpa using h1
      · simpa using h2
      · simpa using h3
  · rintro ⟨r, c, hw⟩
    obtain ⟨hcell, d, hd, hcnt⟩ := (winnerAtCell_eq_some_iff b r c p).mp hw
    rw [countRun_ge_four_iff] at hcnt
    refine ⟨r, c, d, hd, ?_⟩
    rw [forall_lt_four]
    refine ⟨?_, ?_, ?_, ?_⟩
    · simpa [cellAt_coe] using hcell
    · simpa using hcnt.1
    · simpa using hcnt.2.1
    · simpa using hcnt.2.2

lemma mem_scanCells (rc : Fin 6 × Fin 7) : rc ∈ scanCells := by
  rcases rc with ⟨r, c⟩
  simp only [scanCells, List.mem_flatMap, List.mem_map]
  exact ⟨r, List.mem_finRange r, c, List.mem_finRange c, rfl⟩

lemma findWinner_eq_none_iff (b : Board) :
    findWinner b = none ↔ ∀ p, ¬ hasRun b p := by
  unfold findWinner
  rw [List.findSome?_eq_none_iff]
  constructor
  · intro h p hrun
    obtain ⟨r, c, hw⟩ := (hasRun_iff_winnerAtCell b p).mp hrun
    have hnone := h (r, c) (mem_scanCells _)
    rw [hw] at hnone
    cases hnone
  · intro h rc _
    cases hw : winnerAtCell b rc.1 rc.2 with
    | none => rfl
    | some p =>
      exact absurd ((hasRun_iff_winnerAtCell b p).mpr ⟨rc.1, rc.2, hw⟩) (h p)

lemma findWinner_hasRun (b : Board) (q : Player) (h : findWinner b = some q) :
    hasRun b q := by
  obtain ⟨rc, _, hw⟩ := List.exists_of_findSome?_eq_some h
  exact (hasRun_iff_winnerAtCell b q).mpr ⟨rc.1, rc.2, hw⟩

lemma boardFull_iff (b : Board) :
    boardFull b = true ↔ ∀ (r : Fin 6) (c : Fin 7), b r c ≠ none := by
  unfold boardFull
  rw [List.all_eq_true]
  constructor
  · intro h r c
    have hx := h (r, c) (mem_scanCells _)
    simpa [Option.isSome_iff_ne_none] using hx
  · intro h rc _
    simpa [Option.isSome_iff_ne_none] using h rc.1 rc.2

lemma eq_otherPlayer_of_ne {p q : Player} (h : q ≠ p) : q = otherPlayer p := by
  cases p <;> cases q <;> revert h <;> decide

lemma val_cases (r : Fin 6) :
    r.val = 0 ∨ r.val = 1 ∨ r.val = 2 ∨ r.val = 3 ∨ r.val = 4 ∨ r.val = 5 := by
  have := r.isLt
  omega

lemma cell_of_val (b : Board) (c : Fin 7) (r' : Fin 6) (n : Nat) (hn : n < 6)
    (hv : r'.val = n) (h : b ⟨n, hn⟩ c ≠ none) : b r' c ≠ none := by
  have he : r' = ⟨n, hn⟩ := Fin.ext hv
  rw [he]
  exact h

lemma makeMove_case (b : Board) (c : Fin 7) (p : Player) (r : Fin 6)
    (hempty : b r c = none)
    (hhigher : ∀ r' : Fin 6, r.val < r'.val → b r' c ≠ none)
    (heq : makeMove b c p = (updateCell b r c p, true)) :
    ∃ r : Fin 6,
      b r c = none ∧
      (∀ r' : Fin 6, r.val < r'.val → b r' c ≠ none) ∧
      makeMove b c p = (updateCell b r c p, true) ∧
      updateCell b r c p r c = some p ∧
      (∀ hb : r.val + 1 < 6, b ⟨r.val + 1, hb⟩ c ≠ none) ∧
      (∀ (r' : Fin 6) (c' : Fin 7), ¬(r' = r ∧ c' = c) → updateCell b r c p r' c' = b r' c') := by
  refine ⟨r, hempty, hhigher, heq, ?_, ?_, ?_⟩
  · simp [updateCell]
  · intro hb
    exact hhigher ⟨r.val + 1, hb⟩ (Nat.lt_succ_self _)
  · intro r' c' hne
    simp only [updateCell, if_neg hne]

lemma makeMove_drop (b : Board) (c : Fin 7) (p : Player)
    (hex : ∃ r : Fin 6, b r c = none) :
    ∃ r : Fin 6,
      b r c = none ∧
      (∀ r' : Fin 6, r.val < r'.val → b r' c ≠ none) ∧
      makeMove b c p = (updateCell b r c p, true) ∧
      updateCell b r c p r c = some p ∧
      (∀ hb : r.val + 1 < 6, b ⟨r.val + 1, hb⟩ c ≠ none) ∧
      (∀ (r' : Fin 6) (c' : Fin 7), ¬(r' = r ∧ c' = c) → updateCell b r c p r' c' = b r' c') := by
  obtain ⟨r0, hr0⟩ := hex
  by_cases h5 : b ⟨5, by omega⟩ c = none
  · refine makeMove_case b c p ⟨5, by omega⟩ h5 ?_ ?_
    · intro r' hlt
      have hlt' : 5 < r'.val := hlt
      exact absurd r'.isLt (by omega)
    · unfold makeMove
      rw [if_pos h5]
  · by_cases h4 : b ⟨4, by omega⟩ c = none
    · refine makeMove_case b c p ⟨4, by omega⟩ h4 ?_ ?_
      · intro r' hlt
        have hlt' : 4 < r'.val := hlt
        have h6 := r'.isLt
        exact cell_of_val b c r' 5 (by omega) (by omega) h5
      · unfold makeMove
        rw [if_neg h5, if_pos h4]
    · by_cases h3 : b ⟨3, by omega⟩ c = none
      · refine makeMove_case b c p ⟨3, by omega⟩ h3 ?_ ?_
        · intro r' hlt
          have hlt' : 3 < r'.val := hlt
          have h6 := r'.isLt
          rcases val_cases r' with h | h | h | h | h | h
          · exact absurd hlt' (by omega)
          · exact absurd hlt' (by omega)
          · exact absurd hlt' (by omega)
          · exact absurd hlt' (by omega)
          · exact cell_of_val b c r' 4 (by omega) h h4
          · exact cell_of_val b c r' 5 (by omega) h h5
        · unfold makeMove
          rw [if_neg h5, if_neg h4, if_pos h3]
      · by_cases h2 : b ⟨2, by omega⟩ c = none
        · refine makeMove_case b c p ⟨2, by omega⟩ h2 ?_ ?_
          · intro r' hlt
            have hlt' : 2 < r'.val := hlt
            have h6 := r'.isLt
            rcases val_cases r' with h | h | h | h | h | h
            · exact absurd hlt' (by omega)
            · exact absurd hlt' (by omega)
            · exact absurd hlt' (by omega)
            · exact cell_of_val b c r' 3 (by omega) h h3
            · exact cell_of_val b c r' 4 (by omega) h h4
            · exact cell_of_val b c r' 5 (by omega) h h5
          · unfold makeMove
            rw [if_neg h5, if_neg h4, if_neg h3, if_pos h2]
        · by_cases h1 : b ⟨1, by omega⟩ c = none
          · refine makeMove_case b c p ⟨1, by omega⟩ h1 ?_ ?_
            · intro r' hlt
              have hlt' : 1 < r'.val := hlt
              have h6 := r'.isLt
              rcases val_cases r' with h | h | h | h | h | h
              · exact absurd hlt' (by omega)
              · exact absurd hlt' (by omega)
              · exact cell_of_val b c r' 2 (by omega) h h2
              · exact cell_of_val b c r' 3 (by omega) h h3
              · exact cell_of_val b c r' 4 (by omega) h h4
              · exact cell_of_val b c r' 5 (by omega) h h5
            · unfold makeMove
              rw [if_neg h5, if_neg h4, if_neg h3, if_neg h2, if_pos h1]
          · by_cases h0 : b ⟨0, by omega⟩ c = none
            · refine makeMove_case b c p ⟨0, by omega⟩ h0 ?_ ?_
              · intro r' hlt
                have hlt' : 0 < r'.val := hlt
                have h6 := r'.isLt
                rcases val_cases r' with h | h | h | h | h | h
                · exact absurd hlt' (by omega)
                · exact cell_of_val b c r' 1 (by omega) h h1
                · exact cell_of_val b c r' 2 (by omega) h h2
                · exact cell_of_val b c r' 3 (by omega) h h3
                · exact cell_of_val b c r' 4 (by omega) h h4
                · exact cell_of_val b c r' 5 (by omega) h h5
              · unfold makeMove
                rw [if_neg h5, if_neg h4, if_neg h3, if_neg h2, if_neg h1, if_pos h0]
            · exfalso
              rcases val_cases r0 with h | h | h | h | h | h
              · exact cell_of_val b c r0 0 (by omega) h h0 hr0
              · exact cell_of_val b c r0 1 (by omega) h h1 hr0
              · exact cell_of_val b c r0 2 (by omega) h h2 hr0
              · exact cell_of_val b c r0 3 (by omega) h h3 hr0
              · exact cell_of_val b c r0 4 (by omega) h h4 hr0
              · exact cell_of_val b c r0 5 (by omega) h h5 hr0

lemma makeMove_full (b : Board) (c : Fin 7) (p : Player)
    (hall : ∀ r : Fin 6, b r c ≠ none) :
    makeMove b c p = (b, false) := by
  unfold makeMove
  rw [if_neg (hall ⟨5, by omega⟩), if_neg (hall ⟨4, by omega⟩), if_neg (hall ⟨3, by omega⟩),
    if_neg (hall ⟨2, by omega⟩), if_neg (hall ⟨1, by omega⟩), if_neg (hall ⟨0, by omega⟩)]

lemma makeMove_gravity (b : Board) (c : Fin 7) (p : Player) (hgrav : gravityInv b) :
    gravityInv (makeMove b c p).1 := by
  by_cases hex : ∃ r : Fin 6, b r c = none
  · obtain ⟨r, hempty, hhigher, heq, hval, hbelow, hframe⟩ := makeMove_drop b c p hex
    rw [heq]
    dsimp only
    intro r1 c1 hb1 hocc
    by_cases hsame : r1 = r ∧ c1 = c
    · obtain ⟨rfl, rfl⟩ := hsame
      rw [hframe ⟨r1.val + 1, hb1⟩ c1 (fun hx => by
        have hv : r1.val + 1 = r1.val := congrArg Fin.val hx.1
        omega)]
      exact hhigher ⟨r1.val + 1, hb1⟩ (Nat.lt_succ_self _)
    · have hocc' : b r1 c1 ≠ none := by
        rwa [hframe r1 c1 hsame] at hocc
      have hnext := hgrav r1 c1 hb1 hocc'
      by_cases hsame2 : (⟨r1.val + 1, hb1⟩ : Fin 6) = r ∧ c1 = c
      · obtain ⟨hr, rfl⟩ := hsame2
        rw [hr, hval]
        simp
      · rw [hframe _ _ hsame2]
        exact hnext
  · push_neg at hex
    rw [makeMove_full b c p hex]
    exact hgrav

/-- C5: on a column with an empty cell, makeMove places the identity in the
lowest empty row (every row strictly below it is occupied, in particular the
cell directly beneath), changes no other cell, reports success, and
preserves the gravity invariant; on a full column it is a no-op on the board
and reports failure. -/
theorem C5_makeMove_drop_lowest (b : Board) (c : Fin 7) (p : Player) :
    ((∃ r : Fin 6, b r c = none) →
      ∃ r : Fin 6,
        b r c = none ∧
        (∀ r' : Fin 6, r.val < r'.val → b r' c ≠ none) ∧
        makeMove b c p = (updateCell b r c p, true) ∧
        updateCell b r c p r c = some p ∧
        (∀ hb : r.val + 1 < 6, b ⟨r.val + 1, hb⟩ c ≠ none) ∧
        (∀ (r' : Fin 6) (c' : Fin 7), ¬(r' = r ∧ c' = c) →
          updateCell b r c p r' c' = b r' c')) ∧
    ((∀ r : Fin 6, b r c ≠ none) → makeMove b c p = (b, false)) ∧
    (gravityInv b → gravityInv (makeMove b c p).1) :=
  ⟨makeMove_drop b c p, makeMove_full b c p, makeMove_gravity b c p⟩

/-- C5 witness: dropping into column 3 of the empty board succeeds. -/
theorem C5_witness :
    (makeMove createEmptyBoard ⟨3, by omega⟩ Player.P1).2 = true := by
  obtain ⟨r, -, -, heq, -, -, -⟩ :=
    (C5_makeMove_drop_lowest createEmptyBoard ⟨3, by omega⟩ Player.P1).1 ⟨⟨5, by omega⟩, rfl⟩
  rw [heq]

/-- C1 (amended): invoked on an ONGOING state, checkWinCondition produces
status WIN iff some identity owns a run of length at least 4; any declared
winner owns such a run, and an identity owning a run while the other does
not is the declared winner; the result is DRAW with the winner cleared iff
the board is full and runless; otherwise the state is left unchanged. -/
theorem C1_checkWinCondition_amended (g : GameState) (hg : g.status = Status.ONGOING) :
    ((checkWinCondition g).status = Status.WIN ↔ ∃ p, hasRun g.board p) ∧
    (∀ q, (checkWinCondition g).status = Status.WIN →
      (checkWinCondition g).winner = some q → hasRun g.board q) ∧
    (∀ p, hasRun g.board p → ¬ hasRun g.board (otherPlayer p) →
      (checkWinCondition g).winner = some p ∧ (checkWinCondition g).status = Status.WIN) ∧
    ((checkWinCondition g).status = Status.DRAW ↔
      (boardFull g.board = true ∧ ∀ p, ¬ hasRun g.board p)) ∧
    ((checkWinCondition g).status = Status.DRAW → (checkWinCondition g).winner = none) ∧
    ((∀ p, ¬ hasRun g.board p) → boardFull g.board = false → checkWinCondition g = g) := by
  cases hfw : findWinner g.board with
  | some q =>
    have hq : hasRun g.board q := findWinner_hasRun _ _ hfw
    have hck : checkWinCondition g = { g with status := Status.WIN, winner := some q } := by
      unfold checkWinCondition
      rw [hfw]
    rw [hck]
    refine ⟨?_, ?_, ?_, ?_, ?_, ?_⟩
    · exact iff_of_true rfl ⟨q, hq⟩
    · intro q' _ hw
      have hqq : q = q' := by
        injection hw
      exact hqq ▸ hq
    · intro p hp hop
      have hqp : q = p := by
        by_contra hne
        exact hop ((eq_otherPlayer_of_ne hne) ▸ hq)
      exact ⟨by rw [hqp], rfl⟩
    · exact iff_of_false (fun h => Status.noConfusion h) (fun h => h.2 q hq)
    · intro h
      exact Status.noConfusion h
    · intro hall _
      exact absurd hq (hall q)
  | none =>
    have hall : ∀ p, ¬ hasRun g.board p := (findWinner_eq_none_iff _).mp hfw
    by_cases hful : boardFull g.board = true
    · have hck : checkWinCondition g = { g with status := Status.DRAW, winner := none } := by
        unfold checkWinCondition
        rw [hfw, if_pos hful]
      rw [hck]
      refine ⟨?_, ?_, ?_, ?_, ?_, ?_⟩
      · exact iff_of_false (fun h => Status.noConfusion h) (fun ⟨p, hp⟩ => hall p hp)
      · intro q' h
        exact Status.noConfusion h
      · intro p hp
        exact absurd hp (hall p)
      · exact iff_of_true rfl ⟨hful, hall⟩
      · intro _
        rfl
      · intro _ hf
        rw [hful] at hf
        cases hf
    · have hck : checkWinCondition g = g := by
        unfold checkWinCondition
        rw [hfw, if_neg hful]
      rw [hck]
      refine ⟨?_, ?_, ?_, ?_, ?_, ?_⟩
      · rw [hg]
        exact iff_of_false (fun h => Status.noConfusion h) (fun ⟨p, hp⟩ => hall p hp)
      · intro q' h
        rw [hg] at h
        exact Status.noConfusion h
      · intro p hp
        exact absurd hp (hall p)
      · rw [hg]
        exact iff_of_false (fun h => Status.noConfusion h) (fun h => hful h.1)
      · intro h
        rw [hg] at h
        exact Status.noConfusion h
      · intro _ _
        rfl

/-- C1 witness: on a concrete board where only Player1 owns a run, the win
scan declares WIN with winner Player1. -/
theorem C1_witness :
    (checkWinCondition p1WinState).winner = some Player.P1 ∧
    (checkWinCondition p1WinState).status = Status.WIN :=
  (C1_checkWinCondition_amended p1WinState rfl).2.2.1 Player.P1 (by decide) (by decide)

/-- C1 counterexample: on bothWinBoard both identities own a completed run,
yet the scan declares WIN with winner Player2, so WIN is not returned for
Player1 although Player1 owns a run — the per-identity biconditional of the
claim fails. -/
theorem C1_counterexample :
    hasRun bothWinState.board Player.P1 ∧
    (checkWinCondition bothWinState).status = Status.WIN ∧
    (checkWinCondition bothWinState).winner = some Player.P2 ∧
    ¬ (checkWinCondition bothWinState).winner = some Player.P1 := by
  decide

lemma checkWin_currentPlayer (g : GameState) :
    (checkWinCondition g).currentPlayer = g.currentPlayer := by
  unfold checkWinCondition
  cases hfw : findWinner g.board with
  | some q =>
    rfl
  | none =>
    show (if boardFull g.board = true
      then ({ g with status := Status.DRAW, winner := none } : GameState)
      else g).currentPlayer = g.currentPlayer
    split_ifs <;> rfl

lemma afterMoveFlip_status (g2 : GameState) : (afterMoveFlip g2).status = g2.status := by
  unfold afterMoveFlip
  split_ifs <;> rfl

lemma afterMoveFlip_of_ongoing (g2 : GameState) (h : g2.status = Status.ONGOING) :
    (afterMoveFlip g2).currentPlayer = otherPlayer g2.currentPlayer := by
  unfold afterMoveFlip
  rw [if_pos h]

lemma afterMoveFlip_of_over (g2 : GameState) (h : g2.status ≠ Status.ONGOING) :
    (afterMoveFlip g2).currentPlayer = g2.currentPlayer := by
  unfold afterMoveFlip
  rw [if_neg h]

lemma run_reachable (evs : List Event) : ∀ s, Reachable s → Reachable (run s evs) := by
  induction evs with
  | nil =>
    intro s hs
    exact hs
  | cons e t ih =>
    intro s hs
    exact ih _ (Reachable.next s e hs)

lemma findIndex_eq_none_iff {α : Type} (pred : α → Bool) (l : List α) :
    findIndex pred l = none ↔ ∀ a ∈ l, pred a = false := by
  induction l with
  | nil => simp [findIndex]
  | cons a t ih =>
    by_cases h : pred a
    · simp [findIndex, h]
    · simp [findIndex, h, ih]

lemma findIndex_isSome_of_mem {α : Type} (pred : α → Bool) (l : List α) (a : α)
    (ha : a ∈ l) (hp : pred a = true) : findIndex pred l ≠ none := by
  intro h
  rw [findIndex_eq_none_iff] at h
  rw [h a ha] at hp
  cases hp

lemma eraseIdx_of_findIndex {α : Type} (pred : α → Bool) :
    ∀ (l : List α) (i : Nat), findIndex pred l = some i → l.eraseIdx i = l.eraseP pred := by
  intro l
  induction l with
  | nil =>
    intro i h
    cases h
  | cons a t ih =>
    intro i h
    by_cases hp : pred a
    · rw [findIndex, if_pos hp] at h
      injection h with h
      subst h
      rw [List.eraseP_cons_of_pos hp]
      rfl
    · rw [findIndex, if_neg hp] at h
      cases hft : findIndex pred t with
      | none =>
        rw [hft] at h
        cases h
      | some j =>
        rw [hft] at h
        injection h with h
        subst h
        rw [List.eraseP_cons_of_neg hp]
        show a :: t.eraseIdx j = a :: t.eraseP pred
        rw [ih j hft]

/-- C7 (amended): a payload that fails to parse yields an error notification
to the sender alone with the session untouched; a well-formed payload of
unrecognised kind is dropped silently — no session mutation, no broadcast,
and (contrary to the claim) no error notification either. -/
theorem C7_malformed_unknown (g : GameState) (wsPlayer : Player) (ch : Nat) :
    handleMessage g wsPlayer ch ClientMsg.malformed = (g, [(ch, OutMsg.errorMsg)]) ∧
    handleMessage g wsPlayer ch ClientMsg.unknownKind = (g, []) :=
  ⟨rfl, rfl⟩

/-- C7 counterexample: a well-formed payload of unrecognised kind produces
no outbound message at all, so no error notification reaches the sender. -/
theorem C7_counterexample :
    handleMessage p1WinState Player.P1 0 ClientMsg.unknownKind = (p1WinState, []) := rfl

/-- C2 (amended): every rejected event leaves the session unchanged and
sends nothing beyond its own channel, but only a move to an invalid column
and a reset outside a terminal status answer with an error notification; a
move by the wrong actor or outside ONGOING is dropped with no reply, and a
join while full gets the game-full notice. -/
theorem C2_rejections (g : GameState) (wsPlayer : Player) (ch : Nat)
    (pl : Option Player) (col : Int) (s : ServerState) :
    (¬(pl = some wsPlayer ∧ g.currentPlayer = wsPlayer ∧ g.status = Status.ONGOING) →
      handleMessage g wsPlayer ch (ClientMsg.move pl col) = (g, [])) ∧
    ((pl = some wsPlayer ∧ g.currentPlayer = wsPlayer ∧ g.status = Status.ONGOING) →
      isValidMove g.board col = false →
      handleMessage g wsPlayer ch (ClientMsg.move pl col) = (g, [(ch, OutMsg.errorMsg)])) ∧
    (¬(g.status = Status.WIN ∨ g.status = Status.DRAW ∨ g.status = Status.ABANDONED) →
      handleMessage g wsPlayer ch ClientMsg.resetGame = (g, [(ch, OutMsg.errorMsg)])) ∧
    (2 ≤ s.game.players.length → s.game.status ≠ Status.WAITING →
      (handleConnection s).1.game = s.game ∧
      (handleConnection s).2 = [(s.nextChan, OutMsg.gameFull)]) := by
  refine ⟨?_, ?_, ?_, ?_⟩
  · intro hna
    simp only [handleMessage]
    rw [if_neg hna]
  · intro hacc hv
    simp only [handleMessage]
    rw [if_pos hacc, dif_neg (by simp [hv])]
  · intro hterm
    simp only [handleMessage]
    rw [if_neg hterm]
  · intro h2 hst
    unfold handleConnection
    rw [if_pos ⟨h2, hst⟩]
    exact ⟨rfl, rfl⟩

/-- C2 counterexample: Scenario E — seat A moves while the status is still
WAITING; the event falls through the dispatch chain, so the board is
unchanged but no error message is sent back. -/
theorem C2_counterexample :
    handleMessage waitingAState Player.P1 0 (ClientMsg.move (some Player.P1) 3)
      = (waitingAState, []) := rfl

/-- C2 witness: a reset requested during an ONGOING game is refused with an
error notification to the requesting channel and no state change. -/
theorem C2_witness :
    handleMessage p1WinState Player.P1 0 ClientMsg.resetGame
      = (p1WinState, [(0, OutMsg.errorMsg)]) :=
  (C2_rejections p1WinState Player.P1 0 (some Player.P1) 0 initState).2.2.1 (by decide)

/-- C6: a reset request is honoured exactly from the terminal statuses WIN,
DRAW and ABANDONED, rebuilding an empty board, clearing the winner, handing
the turn to Player1, keeping the participants, and resuming ONGOING with two
players connected and WAITING otherwise; outside a terminal status it is
refused with an error notification and no state change. -/
theorem C6_reset (g : GameState) (wsPlayer : Player) (ch : Nat) :
    ((g.status = Status.WIN ∨ g.status = Status.DRAW ∨ g.status = Status.ABANDONED) →
      (handleMessage g wsPlayer ch ClientMsg.resetGame).1.board = createEmptyBoard ∧
      (handleMessage g wsPlayer ch ClientMsg.resetGame).1.winner = none ∧
      (handleMessage g wsPlayer ch ClientMsg.resetGame).1.currentPlayer = Player.P1 ∧
      (handleMessage g wsPlayer ch ClientMsg.resetGame).1.players = g.players ∧
      (handleMessage g wsPlayer ch ClientMsg.resetGame).1.status =
        (if g.players.length = 2 then Status.ONGOING else Status.WAITING)) ∧
    (¬(g.status = Status.WIN ∨ g.status = Status.DRAW ∨ g.status = Status.ABANDONED) →
      handleMessage g wsPlayer ch ClientMsg.resetGame = (g, [(ch, OutMsg.errorMsg)])) := by
  constructor
  · intro hterm
    simp only [handleMessage]
    rw [if_pos hterm]
    exact ⟨rfl, rfl, rfl, rfl, rfl⟩
  · intro hterm
    simp only [handleMessage]
    rw [if_neg hterm]

/-- C6 witness: Scenario F — after a WIN with both players connected, a
reset clears the board, makes the game ONGOING and gives Player1 the turn. -/
theorem C6_witness :
    (handleMessage scenarioFState Player.P1 0 ClientMsg.resetGame).1.status = Status.ONGOING ∧
    (handleMessage scenarioFState Player.P1 0 ClientMsg.resetGame).1.currentPlayer = Player.P1 ∧
    (handleMessage scenarioFState Player.P1 0 ClientMsg.resetGame).1.board = createEmptyBoard := by
  obtain ⟨hb, hw, hcp, hp, hs⟩ := (C6_reset scenarioFState Player.P1 0).1 (Or.inl rfl)
  refine ⟨?_, hcp, hb⟩
  rw [hs]
  rfl

/-- C9: an accepted move that leaves the game ONGOING hands the turn to the
identity that did not just move; an accepted move that ends the game leaves
the turn-owner as the mover. -/
theorem C9_turn_alternation (g : GameState) (wsPlayer : Player) (ch : Nat)
    (pl : Option Player) (col : Int)
    (hpl : pl = some wsPlayer) (hcur : g.currentPlayer = wsPlayer)
    (hst : g.status = Status.ONGOING) (hv : isValidMove g.board col = true) :
    ((handleMessage g wsPlayer ch (ClientMsg.move pl col)).1.status = Status.ONGOING →
      (handleMessage g wsPlayer ch (ClientMsg.move pl col)).1.currentPlayer
        = otherPlayer wsPlayer) ∧
    ((handleMessage g wsPlayer ch (ClientMsg.move pl col)).1.status ≠ Status.ONGOING →
      (handleMessage g wsPlayer ch (ClientMsg.move pl col)).1.currentPlayer = wsPlayer) := by
  simp only [handleMessage]
  rw [if_pos ⟨hpl, hcur, hst⟩, dif_pos hv]
  dsimp only
  constructor
  · intro hon
    rw [afterMoveFlip_status] at hon
    rw [afterMoveFlip_of_ongoing _ hon, checkWin_currentPlayer]
    exact congrArg otherPlayer hcur
  · intro hne
    rw [afterMoveFlip_status] at hne
    rw [afterMoveFlip_of_over _ hne, checkWin_currentPlayer]
    exact hcur

/-- C9 witness: Player1 opens with an accepted move in column 0 of the fresh
game; the game stays ONGOING and the turn passes to the other player. -/
theorem C9_witness :
    (handleMessage ongoingState Player.P1 0
      (ClientMsg.move (some Player.P1) 0)).1.currentPlayer = otherPlayer Player.P1 := by
  have h := (C9_turn_alternation ongoingState Player.P1 0 (some Player.P1) 0
    rfl rfl rfl (by decide)).1
  exact h (by decide)

/-- C3: evidence against the join invariants — after the trace join, join,
disconnect of the first player, join, the reachable session holds two
participants that are both assigned Player2, the final join having been
accepted while the status was ABANDONED rather than WAITING. -/
theorem C3_duplicate_identity :
    Reachable rejoinState ∧
    rejoinState.game.players.map Participant.id = [Player.P2, Player.P2] ∧
    rejoinState.game.status = Status.ABANDONED ∧
    abandonedServer.game.status = Status.ABANDONED ∧
    abandonedServer.game.players.length = 1 ∧
    rejoinState = (step abandonedServer Event.connect).1 :=
  ⟨run_reachable rejoinTrace initState Reachable.init, by decide, by decide, by decide,
    by decide, rfl⟩

/-- C8: a connection attempt while two participants are present and the
status is not WAITING changes nothing in the session, leaves the participant
count at two, and sends exactly one game-full notice — a message kind
distinct from the generic error — to the joining channel alone. -/
theorem C8_full_rejection (s : ServerState)
    (h2 : s.game.players.length = 2) (hst : s.game.status ≠ Status.WAITING) :
    (step s Event.connect).1.game = s.game ∧
    (step s Event.connect).1.game.players.length = 2 ∧
    (step s Event.connect).2 = [(s.nextChan, OutMsg.gameFull)] ∧
    OutMsg.gameFull ≠ OutMsg.errorMsg ∧
    (∀ q ∈ s.game.players, q.chan ≠ s.nextChan →
      ∀ m ∈ (step s Event.connect).2, m.1 ≠ q.chan) := by
  have hcond : 2 ≤ s.game.players.length ∧ s.game.status ≠ Status.WAITING := by
    constructor
    · omega
    · exact hst
  have hgame : (step s Event.connect).1.game = s.game := by
    show (handleConnection s).1.game = s.game
    simp only [handleConnection]
    rw [if_pos hcond]
  have hout : (step s Event.connect).2 = [(s.nextChan, OutMsg.gameFull)] := by
    show (handleConnection s).2 = [(s.nextChan, OutMsg.gameFull)]
    simp only [handleConnection]
    rw [if_pos hcond]
  refine ⟨hgame, ?_, hout, fun h => OutMsg.noConfusion h, ?_⟩
  · rw [hgame]
    exact h2
  · intro q hq hne m hm
    rw [hout] at hm
    rw [List.mem_singleton] at hm
    subst hm
    intro hc
    exact hne hc.symm

/-- C8 witness: a third connection into the full ONGOING game is rejected
with the single game-full notice and the participant count stays two. -/
theorem C8_witness :
    (step ongoingServer Event.connect).1.game.players.length = 2 ∧
    (step ongoingServer Event.connect).2 = [(ongoingServer.nextChan, OutMsg.gameFull)] := by
  have h := C8_full_rejection ongoingServer (by decide) (by decide)
  exact ⟨h.2.1, h.2.2.1⟩

/-- C10: a disconnect of a channel that was never assigned an identity, of
an unknown channel, or of a channel whose identity is no longer in the
participant list leaves the whole session unchanged and sends nothing. -/
theorem C10_disconnect_frame (s : ServerState) (ch : Nat) :
    (lookupChan s.chans ch = none → step s (Event.disconnect ch) = (s, [])) ∧
    (lookupChan s.chans ch = some none →
      (step s (Event.disconnect ch)).1.game = s.game ∧ (step s (Event.disconnect ch)).2 = []) ∧
    (∀ pid, lookupChan s.chans ch = some (some pid) →
      pid ∉ s.game.players.map Participant.id →
      (step s (Event.disconnect ch)).1.game = s.game ∧ (step s (Event.disconnect ch)).2 = []) := by
  refine ⟨?_, ?_, ?_⟩
  · intro h
    simp only [step]
    rw [h]
  · intro h
    constructor
    · simp only [step]
      rw [h]
    · simp only [step]
      rw [h]
  · intro pid h hmem
    have hfi : findIndex (fun q => decide (q.id = pid)) s.game.players = none := by
      rw [findIndex_eq_none_iff]
      intro a ha
      simp only [decide_eq_false_iff_not]
      intro he
      exact hmem (List.mem_map.mpr ⟨a, ha, he⟩)
    have hres : handlePlayerDisconnect s.game pid = (s.game, []) := by
      unfold handlePlayerDisconnect
      rw [hfi]
    constructor
    · simp only [step]
      rw [h]
      show (handlePlayerDisconnect s.game pid).1 = s.game
      rw [hres]
    · simp only [step]
      rw [h]
      show (handlePlayerDisconnect s.game pid).2 = []
      rw [hres]

/-- C10 witness: the rejected third joiner closing its channel leaves the
session exactly as it was and triggers no message. -/
theorem C10_witness :
    (step rejectedServer (Event.disconnect 2)).1.game = rejectedServer.game ∧
    (step rejectedServer (Event.disconnect 2)).2 = [] :=
  (C10_disconnect_frame rejectedServer 2).2.1 (by decide)

/-- C4: disconnecting a current participant removes exactly that entry; an
ONGOING game becomes ABANDONED, the winner being the sole survivor when
exactly one participant remains and unset otherwise; an already-terminal
status survives while somebody is left; and a session whose participant
count reaches zero outside WAITING is fully rebuilt. -/
theorem C4_handlePlayerDisconnect (g : GameState) (pid : Player) :
    ((handlePlayerDisconnect g pid).1.players
        = g.players.eraseP (fun q => decide (q.id = pid))) ∧
    (pid ∈ g.players.map Participant.id →
      (handlePlayerDisconnect g pid).1.players.length + 1 = g.players.length) ∧
    (pid ∈ g.players.map Participant.id → g.status = Status.ONGOING →
      (handlePlayerDisconnect g pid).1.players.length ≠ 0 →
      (handlePlayerDisconnect g pid).1.status = Status.ABANDONED) ∧
    (pid ∈ g.players.map Participant.id → g.status = Status.ONGOING →
      (handlePlayerDisconnect g pid).1.players.length = 1 →
      (handlePlayerDisconnect g pid).1.winner
        = (handlePlayerDisconnect g pid).1.players.head?.map Participant.id) ∧
    (pid ∈ g.players.map Participant.id → g.status = Status.ONGOING →
      (handlePlayerDisconnect g pid).1.players.length ≠ 1 →
      (handlePlayerDisconnect g pid).1.winner = none) ∧
    (pid ∈ g.players.map Participant.id →
      (g.status = Status.WIN ∨ g.status = Status.DRAW ∨ g.status = Status.ABANDONED) →
      (handlePlayerDisconnect g pid).1.players.length ≠ 0 →
      (handlePlayerDisconnect g pid).1.status = g.status) ∧
    (pid ∈ g.players.map Participant.id →
      (handlePlayerDisconnect g pid).1.players.length = 0 → g.status ≠ Status.WAITING →
      (handlePlayerDisconnect g pid).1 = fullGameReset) := by
  by_cases hex : ∃ q ∈ g.players, q.id = pid
  case neg =>
    have hfi : findIndex (fun q => decide (q.id = pid)) g.players = none := by
      rw [findIndex_eq_none_iff]
      intro a ha
      simp only [decide_eq_false_iff_not]
      exact fun he => hex ⟨a, ha, he⟩
    have hres : handlePlayerDisconnect g pid = (g, []) := by
      unfold handlePlayerDisconnect
      rw [hfi]
    have hnm : pid ∉ g.players.map Participant.id := by
      intro hm
      obtain ⟨q, hq, he⟩ := List.mem_map.mp hm
      exact hex ⟨q, hq, he⟩
    rw [hres]
    refine ⟨?_, fun hm => absurd hm hnm, fun hm => absurd hm hnm, fun hm => absurd hm hnm,
      fun hm => absurd hm hnm, fun hm => absurd hm hnm, fun hm => absurd hm hnm⟩
    rw [List.eraseP_of_forall_not]
    intro a ha
    simp only [decide_eq_true_eq]
    exact fun he => hex ⟨a, ha, he⟩
  case pos =>
    obtain ⟨q0, hq0, hid0⟩ := hex
    cases hfi : findIndex (fun q => decide (q.id = pid)) g.players with
    | none =>
      exact absurd hfi (findIndex_isSome_of_mem _ _ q0 hq0 (by simp [hid0]))
    | some i =>
      have herase : g.players.eraseIdx i = g.players.eraseP (fun q => decide (q.id = pid)) :=
        eraseIdx_of_findIndex _ _ i hfi
      have hlen : (g.players.eraseP (fun q => decide (q.id = pid))).length + 1
          = g.players.length := by
        rw [List.length_eraseP_of_mem hq0 (by simp [hid0])]
        have hne : g.players.length ≠ 0 := by
          intro h0
          rw [List.length_eq_zero] at h0
          rw [h0] at hq0
          cases hq0
        omega
      unfold handlePlayerDisconnect
      rw [hfi]
      dsimp only
      rw [herase]
      by_cases hON : g.status = Status.ONGOING
      · rw [if_pos hON]
        by_cases hlen0 : (g.players.eraseP (fun q => decide (q.id = pid))).length = 0
        · rw [if_pos ⟨hlen0, fun hx => Status.noConfusion hx⟩]
          refine ⟨?_, ?_, ?_, ?_, ?_, ?_, ?_⟩
          · exact (List.length_eq_zero.mp hlen0).symm
          · intro _
            show 0 + 1 = g.players.length
            omega
          · intro _ _ hne
            exact absurd rfl hne
          · intro _ _ h1
            cases h1
          · intro _ _ _
            rfl
          · intro _ hterm _
            rw [hON] at hterm
            rcases hterm with h | h | h <;> cases h
          · intro _ _ _
            rfl
        · rw [if_neg (fun hx => hlen0 hx.1)]
          refine ⟨rfl, ?_, ?_, ?_, ?_, ?_, ?_⟩
          · intro _
            exact hlen
          · intro _ _ _
            rfl
          · intro _ _ h1
            show (if (g.players.eraseP (fun q => decide (q.id = pid))).length = 1 then
              (g.players.eraseP (fun q => decide (q.id = pid))).head?.map Participant.id
              else none) = _
            rw [if_pos h1]
          · intro _ _ h1
            show (if (g.players.eraseP (fun q => decide (q.id = pid))).length = 1 then
              (g.players.eraseP (fun q => decide (q.id = pid))).head?.map Participant.id
              else none) = none
            rw [if_neg h1]
          · intro _ hterm _
            rw [hON] at hterm
            rcases hterm with h | h | h <;> cases h
          · intro _ h0 _
            exact absurd h0 hlen0
      · rw [if_neg hON]
        by_cases hc : (g.players.eraseP (fun q => decide (q.id = pid))).length = 0 ∧
            g.status ≠ Status.WAITING
        · rw [if_pos hc]
          refine ⟨?_, ?_, ?_, ?_, ?_, ?_, ?_⟩
          · exact (List.length_eq_zero.mp hc.1).symm
          · intro _
            have h0 := hc.1
            show 0 + 1 = g.players.length
            omega
          · intro _ hONG _
            exact absurd hONG hON
          · intro _ hONG _
            exact absurd hONG hON
          · intro _ hONG _
            exact absurd hONG hON
          · intro _ _ hne
            exact absurd rfl hne
          · intro _ _ _
            rfl
        · rw [if_neg hc]
          refine ⟨rfl, ?_, ?_, ?_, ?_, ?_, ?_⟩
          · intro _
            exact hlen
          · intro _ hONG _
            exact absurd hONG hON
          · intro _ hONG _
            exact absurd hONG hON
          · intro _ hONG _
            exact absurd hONG hON
          · intro _ _ _
            rfl
          · intro _ h0 hW
            exact absurd ⟨h0, hW⟩ hc

/-- C4 witness: Scenario C — Player2 leaves the full ONGOING game; the game
is ABANDONED and the remaining Player1 is the winner. -/
theorem C4_witness :
    (handlePlayerDisconnect ongoingState Player.P2).1.status = Status.ABANDONED ∧
    (handlePlayerDisconnect ongoingState Player.P2).1.winner = some Player.P1 := by
  have h := C4_handlePlayerDisconnect ongoingState Player.P2
  refine ⟨h.2.2.1 (by decide) rfl (by decide), ?_⟩
  have hw := h.2.2.2.1 (by decide) rfl (by decide)
  rw [hw]
  decide

end ConnectFour
